import Mathlib

/-!
Verification of the harfbuzz C accessor shim (`src/text/harfbuzz.c`).

The shim exposes two functions:

  hb_glyph_info_t *get_glyph_info(hb_glyph_info_t *info, unsigned int i) {
      return &info[i];
  }
  hb_glyph_position_t *get_glyph_position(hb_glyph_position_t *pos, unsigned int i) {
      return &pos[i];
  }

We embed C pointers as natural-number addresses.  In C, `&p[i]` for a
pointer `p` to a `k`-byte record type denotes the address `p + i * k`
(contiguous-array addressing); the expression performs no load or store.
-/

/-- Address of the `i`-th element of an array of `k`-byte records based at
address `B`: the C expression `&arr[i]` denotes `B + i * k`. -/
def c_index_addr (k B i : Nat) : Nat := B + i * k

/-- Modelled from the spec: the record type `hb_glyph_info_t` is defined in
the external header `hb.h`, not in this repository; the spec describes
`GlyphInfo` as a fixed-size record of 20 bytes (five 32-bit fields:
codepoint, mask, cluster, var1, var2). -/
def sizeof_glyph_info : Nat := 20

/-- Modelled from the spec: the record type `hb_glyph_position_t` is defined
in the external header `hb.h`, not in this repository; it is a fixed-size
record of 20 bytes (five 32-bit fields: x_advance, y_advance, x_offset,
y_offset, var). -/
def sizeof_glyph_position : Nat := 20

/-- Embedding of `get_glyph_info`: `return &info[i];` over `hb_glyph_info_t`
records. -/
def get_glyph_info (info i : Nat) : Nat :=
  c_index_addr sizeof_glyph_info info i

/-- Embedding of `get_glyph_position`: `return &pos[i];` over
`hb_glyph_position_t` records. -/
def get_glyph_position (pos i : Nat) : Nat :=
  c_index_addr sizeof_glyph_position pos i

/-- The foreign heap: all state outside the accessor's arguments, as a map
from addresses to byte values. -/
def Heap : Type := Nat → Nat

/-- The call `get_glyph_info(info, i)` as a state transformer on the heap.
The C body evaluates `&info[i]`, which performs no load and no store, so
the call returns the computed address and leaves the heap as it was. -/
def get_glyph_info_call (m : Heap) (info i : Nat) : Nat × Heap :=
  (get_glyph_info info i, m)

/-- The call `get_glyph_position(pos, i)` as a state transformer on the
heap; like `get_glyph_info_call`, it only computes an address. -/
def get_glyph_position_call (m : Heap) (pos i : Nat) : Nat × Heap :=
  (get_glyph_position pos i, m)

/-- Conversion of a host-supplied integer to the C parameter type
`unsigned int` at the call boundary: reduction modulo `2^32`
(C integer conversion for unsigned types). -/
def uint_of_int (x : Int) : Nat := (x % (2 : Int) ^ 32).toNat

/-- C1: for every base address `B` of an array of `n` contiguous `k`-byte
records and every index `i < n`, the generic accessor returns `B + i * k`;
both shim accessors return base plus index times their record size, and at
`i = n - 1` they return the address of the last valid record. -/
theorem accessor_returns_indexed_address (B n i k : Nat) (h : i < n) :
    c_index_addr k B i = B + i * k ∧
    get_glyph_info B i = B + i * sizeof_glyph_info ∧
    get_glyph_position B i = B + i * sizeof_glyph_position ∧
    get_glyph_info B (n - 1) = B + (n - 1) * sizeof_glyph_info ∧
    get_glyph_position B (n - 1) = B + (n - 1) * sizeof_glyph_position := by
  refine ⟨rfl, rfl, rfl, rfl, rfl⟩

/-- Witness for C1 at `B = 4096`, `n = 3`, `i = 1`, `k = 20`. -/
theorem accessor_returns_indexed_address_witness :
    (1 : Nat) < 3 ∧
    (c_index_addr 20 4096 1 = 4096 + 1 * 20 ∧
     get_glyph_info 4096 1 = 4096 + 1 * sizeof_glyph_info ∧
     get_glyph_position 4096 1 = 4096 + 1 * sizeof_glyph_position ∧
     get_glyph_info 4096 (3 - 1) = 4096 + (3 - 1) * sizeof_glyph_info ∧
     get_glyph_position 4096 (3 - 1) = 4096 + (3 - 1) * sizeof_glyph_position) :=
  ⟨by decide, accessor_returns_indexed_address 4096 3 1 20 (by decide)⟩

/-- C2: with index `0`, both accessors (and the generic accessor at any
record size `k`) return the base address `B` itself. -/
theorem accessor_at_zero_is_identity (B k : Nat) :
    get_glyph_info B 0 = B ∧
    get_glyph_position B 0 = B ∧
    c_index_addr k B 0 = B := by
  refine ⟨?_, ?_, ?_⟩ <;>
    simp [get_glyph_info, get_glyph_position, c_index_addr]

/-- C3: both accessors are deterministic and stateless: two calls with the
same `(B, i)` under arbitrary (possibly different) heaps return the same
address, so the result depends only on the arguments, not on any outside
state. -/
theorem accessor_deterministic_stateless (m₁ m₂ : Heap) (B i : Nat) :
    (get_glyph_info_call m₁ B i).1 = (get_glyph_info_call m₂ B i).1 ∧
    (get_glyph_position_call m₁ B i).1 = (get_glyph_position_call m₂ B i).1 ∧
    (get_glyph_info_call m₁ B i).1 = (get_glyph_info_call m₁ B i).1 ∧
    (get_glyph_position_call m₁ B i).1 = (get_glyph_position_call m₁ B i).1 := by
  exact ⟨rfl, rfl, rfl, rfl⟩

/-- C4: concrete scenario from the spec: an array of 3 `GlyphInfo` records
of 20 bytes each at base address `0x1000` yields addresses `0x1000`,
`0x1014`, `0x1028` at indices 0, 1, 2. -/
theorem glyph_info_concrete_scenario :
    get_glyph_info 0x1000 0 = 0x1000 ∧
    get_glyph_info 0x1000 1 = 0x1014 ∧
    get_glyph_info 0x1000 2 = 0x1028 := by
  decide

/-- C5: neither accessor has a side effect: for every heap, base address
and index, the heap after the call is exactly the heap before it, so the
underlying array and every record in it are unchanged; the call result is
only the computed address. -/
theorem accessor_no_side_effect (m : Heap) (B i : Nat) :
    (get_glyph_info_call m B i).2 = m ∧
    (get_glyph_position_call m B i).2 = m := by
  exact ⟨rfl, rfl⟩

/-- C6: neither accessor ever surfaces an error: for every heap, base
address and index (out-of-range ones included), the call completes
normally, returning exactly the computed address paired with the unchanged
heap — there is no error channel in the return type and no fatal
condition. -/
theorem accessor_never_errors (m : Heap) (B i : Nat) :
    get_glyph_info_call m B i = (B + i * sizeof_glyph_info, m) ∧
    get_glyph_position_call m B i = (B + i * sizeof_glyph_position, m) := by
  exact ⟨rfl, rfl⟩

/-- C7: `get_glyph_position` implements the identical contract as
`get_glyph_info` modulo record size: each is the same generic addressing
function `c_index_addr` applied at its own record size, returning base
plus index times that size. -/
theorem accessors_same_contract (B i : Nat) :
    get_glyph_info B i = c_index_addr sizeof_glyph_info B i ∧
    get_glyph_position B i = c_index_addr sizeof_glyph_position B i ∧
    get_glyph_info B i = B + i * sizeof_glyph_info ∧
    get_glyph_position B i = B + i * sizeof_glyph_position := by
  exact ⟨rfl, rfl, rfl, rfl⟩

/-- C8: no bounds checking: for an array of `n` records and any index
`i ≥ n`, each accessor still performs the unchecked computation
`B + i * size` and the returned address lies at or beyond the end of the
array, outside the valid range `[B, B + n * size)`. -/
theorem accessor_no_bounds_check (B n i : Nat) (h : n ≤ i) :
    get_glyph_info B i = B + i * sizeof_glyph_info ∧
    get_glyph_position B i = B + i * sizeof_glyph_position ∧
    B + n * sizeof_glyph_info ≤ get_glyph_info B i ∧
    B + n * sizeof_glyph_position ≤ get_glyph_position B i ∧
    get_glyph_info B i ∉ Set.Ico B (B + n * sizeof_glyph_info) ∧
    get_glyph_position B i ∉ Set.Ico B (B + n * sizeof_glyph_position) := by
  have hk : sizeof_glyph_info = 20 := rfl
  have hk' : sizeof_glyph_position = 20 := rfl
  have h1 : B + n * 20 ≤ B + i * 20 := by
    have := Nat.mul_le_mul_right 20 h
    omega
  refine ⟨rfl, rfl, ?_, ?_, ?_, ?_⟩
  · simpa [get_glyph_info, c_index_addr, hk] using h1
  · simpa [get_glyph_position, c_index_addr, hk'] using h1
  · intro hmem
    have h2 := hmem.2
    simp only [get_glyph_info, c_index_addr, hk] at h2
    omega
  · intro hmem
    have h2 := hmem.2
    simp only [get_glyph_position, c_index_addr, hk'] at h2
    omega

/-- Witness for C8 at `B = 4096`, `n = 3`, `i = 5`. -/
theorem accessor_no_bounds_check_witness :
    (3 : Nat) ≤ 5 ∧
    (get_glyph_info 4096 5 = 4096 + 5 * sizeof_glyph_info ∧
     get_glyph_position 4096 5 = 4096 + 5 * sizeof_glyph_position ∧
     4096 + 3 * sizeof_glyph_info ≤ get_glyph_info 4096 5 ∧
     4096 + 3 * sizeof_glyph_position ≤ get_glyph_position 4096 5 ∧
     get_glyph_info 4096 5 ∉ Set.Ico 4096 (4096 + 3 * sizeof_glyph_info) ∧
     get_glyph_position 4096 5 ∉ Set.Ico 4096 (4096 + 3 * sizeof_glyph_position)) :=
  ⟨by decide, accessor_no_bounds_check 4096 3 5 (by decide)⟩

/-- C9: the index parameter has C type `unsigned int`, so a host-supplied
integer is reduced modulo `2^32` at the call boundary: every converted
index is below `2^32` (larger indices cannot be expressed), and a negative
value such as `-1` wraps to `2^32 - 1` and is used in the address
computation rather than rejected. -/
theorem index_is_unsigned_int (B : Nat) (x : Int) :
    uint_of_int x < 2 ^ 32 ∧
    uint_of_int (-1) = 2 ^ 32 - 1 ∧
    get_glyph_info B (uint_of_int (-1)) = B + (2 ^ 32 - 1) * sizeof_glyph_info ∧
    get_glyph_position B (uint_of_int (-1)) =
      B + (2 ^ 32 - 1) * sizeof_glyph_position := by
  have hwrap : uint_of_int (-1) = 2 ^ 32 - 1 := by
    unfold uint_of_int
    decide
  refine ⟨?_, hwrap, ?_, ?_⟩
  · unfold uint_of_int
    have hpos : (0 : Int) < 2 ^ 32 := by positivity
    have hlt := Int.emod_lt_of_pos x hpos
    have hge := Int.emod_nonneg x (ne_of_gt hpos)
    omega
  · rw [hwrap]; rfl
  · rw [hwrap]; rfl

/-- C10: indexing composes additively: applying an accessor at index `j`
to the address returned by the same accessor at `(B, i)` equals applying
it once at `(B, i + j)`, whenever `i + j` fits in the `unsigned int`
index type. -/
theorem accessor_index_additive (B i j : Nat) (h : i + j < 2 ^ 32) :
    get_glyph_info (get_glyph_info B i) j = get_glyph_info B (i + j) ∧
    get_glyph_position (get_glyph_position B i) j =
      get_glyph_position B (i + j) := by
  constructor <;>
    · simp only [get_glyph_info, get_glyph_position, c_index_addr]
      ring

/-- Witness for C10 at `B = 4096`, `i = 1`, `j = 2`. -/
theorem accessor_index_additive_witness :
    (1 : Nat) + 2 < 2 ^ 32 ∧
    (get_glyph_info (get_glyph_info 4096 1) 2 = get_glyph_info 4096 (1 + 2) ∧
     get_glyph_position (get_glyph_position 4096 1) 2 =
       get_glyph_position 4096 (1 + 2)) :=
  ⟨by decide, accessor_index_additive 4096 1 2 (by decide)⟩
